import Mathlib

/-!
Verification of the Collaboro signaling relay server (backend server file).

The server keeps three in-memory JavaScript Maps — activeUsers, chatRooms,
videoRooms — and the Socket.io adapter keeps per-room socket membership
(written through socket.join / socket.leave and read by io.to / socket.to
broadcasts).  JavaScript Maps are modelled as insertion-ordered association
lists (JS Map preserves insertion order and has unique keys); JavaScript Sets
of socket ids are modelled as `Finset String` (no claim depends on iteration
order of a Set).  Each socket event handler becomes a pure function from the
server state and the event arguments to the new state paired with the list of
emitted events; an emitted event records its name, the set of target sockets
the adapter delivers it to, and its payload.  Values that the handlers read
from the outside world — Date.now(), new Date().toISOString() — are passed in
as explicit arguments.  console.log / console.error calls are pure output and
are not part of the state.
-/

namespace Collaboro

/-- Lookup in an association list modelling `Map.get` (first entry wins;
JS Maps have unique keys, so there is at most one). -/
def mGet {α : Type} (m : List (String × α)) (k : String) : Option α :=
  match m with
  | [] => none
  | p :: rest => if p.1 = k then some p.2 else mGet rest k

/-- `Map.set`: replace the value in place if the key is present (JS Maps keep
the original insertion position), otherwise append the new entry. -/
def mSet {α : Type} (m : List (String × α)) (k : String) (v : α) : List (String × α) :=
  match m with
  | [] => [(k, v)]
  | p :: rest => if p.1 = k then (k, v) :: rest else p :: mSet rest k v

/-- `Map.delete`: drop every entry with the key (at most one exists in a JS
Map, so this is the single-entry removal). -/
def mDel {α : Type} (m : List (String × α)) (k : String) : List (String × α) :=
  match m with
  | [] => []
  | p :: rest => if p.1 = k then mDel rest k else p :: mDel rest k

/-- `Map.has`. -/
def mHas {α : Type} (m : List (String × α)) (k : String) : Bool :=
  (mGet m k).isSome

/-- `Map.size` (keys are unique in every state the server builds). -/
def mSize {α : Type} (m : List (String × α)) : Nat :=
  m.length

theorem mGet_mSet_self {α : Type} (m : List (String × α)) (k : String) (v : α) :
    mGet (mSet m k v) k = some v := by
  induction m with
  | nil => simp [mGet, mSet]
  | cons p rest ih =>
    by_cases h : p.1 = k
    · simp [mGet, mSet, h]
    · simp [mGet, mSet, h, ih]

theorem mGet_mSet_ne {α : Type} (m : List (String × α)) (k k2 : String) (v : α)
    (h : k2 ≠ k) : mGet (mSet m k v) k2 = mGet m k2 := by
  induction m with
  | nil => simp [mGet, mSet, Ne.symm h]
  | cons p rest ih =>
    by_cases hp : p.1 = k
    · subst hp
      simp [mGet, mSet, Ne.symm h]
    · simp [mGet, mSet, hp, ih]

theorem mGet_mDel_self {α : Type} (m : List (String × α)) (k : String) :
    mGet (mDel m k) k = none := by
  induction m with
  | nil => simp [mGet, mDel]
  | cons p rest ih =>
    by_cases h : p.1 = k
    · simp [mDel, h, ih]
    · simp [mGet, mDel, h, ih]

theorem mGet_mDel_ne {α : Type} (m : List (String × α)) (k k2 : String)
    (h : k2 ≠ k) : mGet (mDel m k) k2 = mGet m k2 := by
  induction m with
  | nil => simp [mDel]
  | cons p rest ih =>
    by_cases hp : p.1 = k
    · subst hp
      simp [mGet, mDel, Ne.symm h, ih]
    · simp [mGet, mDel, hp, ih]

/-- Lookup through a value-only map (the key of every entry is kept). -/
theorem mGet_map_value {α β : Type} (m : List (String × α)) (f : α → β) (k : String) :
    mGet (m.map (fun p => (p.1, f p.2))) k = (mGet m k).map f := by
  induction m with
  | nil => simp [mGet]
  | cons p rest ih =>
    by_cases h : p.1 = k
    · simp [mGet, h]
    · simp [mGet, h, ih]

/-- Entry stored in activeUsers by the user:join handler:
`{ id: socket.id, userId, username, email }`.  The three payload fields may be
absent in the client's object, hence `Option`. -/
structure UserInfo where
  id : String
  userId : Option String
  username : Option String
  email : Option String
deriving DecidableEq

/-- Payload of each event the server emits.  `sender` is the `from` field of
the WebRTC signaling payloads. -/
inductive EventPayload where
  | chatUserJoined (userId username : Option String) (timestamp : String)
  | chatRoomJoined (roomId : String) (userCount : Nat)
  | chatReceiveMessage (msgId roomId message : String)
      (userId username : Option String) (timestamp : String)
  | chatUserLeft (userId username : Option String) (timestamp : String)
  | videoAllUsers (users : Finset (String × Option String × Option String))
  | videoUserJoined (socketId : String) (userId username : Option String)
  | videoReceiveOffer (offer sender : String) (username : Option String)
  | videoReceiveAnswer (answer sender : String)
  | videoIceCandidate (candidate sender : String)
  | videoUserLeft (socketId : String) (userId username : Option String)
deriving DecidableEq

/-- The `message` field of a chat:receive-message payload, when the payload is
one. -/
def EventPayload.messageField : EventPayload → Option String
  | .chatReceiveMessage _ _ message _ _ _ => some message
  | _ => none

/-- The `from` field of a signaling payload, when the payload is one. -/
def EventPayload.senderField : EventPayload → Option String
  | .videoReceiveOffer _ sender _ => some sender
  | .videoReceiveAnswer _ sender => some sender
  | .videoIceCandidate _ sender => some sender
  | _ => none

/-- One emitted event: its name, the set of sockets the Socket.io adapter
delivers it to, and its payload. -/
structure Emit where
  event : String
  targets : Finset String
  payload : EventPayload
deriving DecidableEq

/-- The relay's state.  activeUsers, chatRooms and videoRooms are the three
in-memory Maps declared at the top of the server file.  ioRooms is the
Socket.io adapter's room-membership table: socket.join / socket.leave write it
and io.to / socket.to broadcasts read it.  store stands for any persistent
store visible to the process; the server file never writes one, so no handler
touches this field. -/
structure ServerState where
  activeUsers : List (String × UserInfo)
  chatRooms : List (String × Finset String)
  videoRooms : List (String × Finset String)
  ioRooms : List (String × Finset String)
  store : List String
deriving DecidableEq

/-- Members of a room in a room table (an absent room has no members). -/
def membersOf (rooms : List (String × Finset String)) (r : String) : Finset String :=
  (mGet rooms r).getD ∅

/-- Members of a Socket.io adapter room: the delivery set of
`io.to(r).emit(...)`. -/
def ioMembers (st : ServerState) (r : String) : Finset String :=
  membersOf st.ioRooms r

/-- `socket.join(r)`: add the socket to the adapter room, creating it if
absent. -/
def ioJoin (rooms : List (String × Finset String)) (r sid : String) :
    List (String × Finset String) :=
  mSet rooms r (insert sid (membersOf rooms r))

/-- `socket.leave(r)`: remove the socket from the adapter room; the adapter
discards a room that becomes empty. -/
def ioLeave (rooms : List (String × Finset String)) (r sid : String) :
    List (String × Finset String) :=
  match mGet rooms r with
  | none => rooms
  | some s =>
    if s.erase sid = ∅ then mDel rooms r else mSet rooms r (s.erase sid)

/-- What the adapter does when a socket disconnects: the socket leaves every
room.  (The adapter also discards rooms that become empty; an absent room and
an empty room deliver broadcasts to nobody, so that difference is not
observable here and the entries are kept.) -/
def ioLeaveAll (rooms : List (String × Finset String)) (sid : String) :
    List (String × Finset String) :=
  rooms.map (fun p => (p.1, p.2.erase sid))

/-- On connection the adapter puts each socket in a room named by its own id,
which is what `io.to(socket.id).emit(...)` delivers to. -/
def connectSocket (st : ServerState) (sid : String) : ServerState :=
  { st with ioRooms := ioJoin st.ioRooms sid sid }

/-- JS `a || b` on two string-or-undefined values.  (The JS operator also
falls back on an empty string; the handlers only use it to default missing
payload fields, which `Option` models.) -/
def jsOr (a b : Option String) : Option String :=
  match a with
  | some v => some v
  | none => b

/-- The rooms of a table that contain the socket, in table order: the rooms
the disconnect handler's forEach fires an emit for. -/
def roomsWith (rooms : List (String × Finset String)) (sid : String) :
    List (String × Finset String) :=
  match rooms with
  | [] => []
  | p :: rest =>
    if sid ∈ p.2 then p :: roomsWith rest sid else roomsWith rest sid

theorem mem_roomsWith (rooms : List (String × Finset String)) (sid : String)
    (p : String × Finset String) :
    p ∈ roomsWith rooms sid ↔ p ∈ rooms ∧ sid ∈ p.2 := by
  induction rooms with
  | nil => simp [roomsWith]
  | cons q rest ih =>
    by_cases h : sid ∈ q.2
    · simp only [roomsWith, if_pos h, List.mem_cons, ih]
      constructor
      · rintro (rfl | ⟨hm, hs⟩)
        · exact ⟨Or.inl rfl, h⟩
        · exact ⟨Or.inr hm, hs⟩
      · rintro ⟨(rfl | hm), hs⟩
        · exact Or.inl rfl
        · exact Or.inr ⟨hm, hs⟩
    · simp only [roomsWith, if_neg h, List.mem_cons, ih]
      constructor
      · rintro ⟨hm, hs⟩
        exact ⟨Or.inr hm, hs⟩
      · rintro ⟨(rfl | hm), hs⟩
        · exact absurd hs h
        · exact ⟨hm, hs⟩

-- ==================== SOCKET EVENT HANDLERS ====================

/-- Handler of user:join: store the user's data in activeUsers under the
socket id. -/
def userJoin (st : ServerState) (sid : String)
    (userId username email : Option String) : ServerState × List Emit :=
  ({ st with activeUsers := mSet st.activeUsers sid ⟨sid, userId, username, email⟩ }, [])

/-- Handler of chat:join-room: socket.join(roomId); create the chatRooms entry
if absent and add the socket id; emit chat:user-joined to the others in the
room and chat:room-joined (with the room's size) to the joiner.  `ts` is
new Date().toISOString(). -/
def chatJoinRoom (st : ServerState) (sid roomId ts : String) :
    ServerState × List Emit :=
  let io1 := ioJoin st.ioRooms roomId sid
  let members := insert sid (membersOf st.chatRooms roomId)
  let user := mGet st.activeUsers sid
  ({ st with ioRooms := io1, chatRooms := mSet st.chatRooms roomId members },
   [⟨"chat:user-joined", (membersOf io1 roomId).erase sid,
      .chatUserJoined (user.bind UserInfo.userId) (user.bind UserInfo.username) ts⟩,
    ⟨"chat:room-joined", membersOf io1 sid,
      .chatRoomJoined roomId members.card⟩])

/-- The data object of a chat:send-message event. -/
structure ChatMessageIn where
  roomId : String
  message : String
  userId : Option String
  username : Option String

/-- Handler of chat:send-message: build the messageData object (its id is
built from Date.now(), passed here as `now`) and broadcast it with
io.to(roomId) to every socket in the room, the sender included. -/
def chatSendMessage (st : ServerState) (sid : String) (d : ChatMessageIn)
    (now : Nat) (ts : String) : ServerState × List Emit :=
  let user := mGet st.activeUsers sid
  (st,
   [⟨"chat:receive-message", ioMembers st d.roomId,
      .chatReceiveMessage ("msg-" ++ toString now ++ "-" ++ sid) d.roomId d.message
        (jsOr d.userId (user.bind UserInfo.userId))
        (jsOr d.username (user.bind UserInfo.username)) ts⟩])

/-- Handler of chat:leave-room: socket.leave(roomId); remove the socket id
from the chatRooms entry and delete the entry when it becomes empty; emit
chat:user-left to the remaining sockets in the room. -/
def chatLeaveRoom (st : ServerState) (sid roomId ts : String) :
    ServerState × List Emit :=
  let io1 := ioLeave st.ioRooms roomId sid
  let chat1 :=
    match mGet st.chatRooms roomId with
    | none => st.chatRooms
    | some s =>
      if s.erase sid = ∅ then mDel st.chatRooms roomId
      else mSet st.chatRooms roomId (s.erase sid)
  let user := mGet st.activeUsers sid
  ({ st with ioRooms := io1, chatRooms := chat1 },
   [⟨"chat:user-left", (membersOf io1 roomId).erase sid,
      .chatUserLeft (user.bind UserInfo.userId) (user.bind UserInfo.username) ts⟩])

/-- Handler of video:join-room: socket.join(roomId); create the videoRooms
entry if absent and add the socket id; send video:all-users (the other members,
each with the user data looked up in activeUsers) to the joiner and
video:user-joined to the others. -/
def videoJoinRoom (st : ServerState) (sid roomId : String) :
    ServerState × List Emit :=
  let io1 := ioJoin st.ioRooms roomId sid
  let members := insert sid (membersOf st.videoRooms roomId)
  let user := mGet st.activeUsers sid
  let others := (members.erase sid).image (fun i =>
    (i, (mGet st.activeUsers i).bind UserInfo.userId,
        (mGet st.activeUsers i).bind UserInfo.username))
  ({ st with ioRooms := io1, videoRooms := mSet st.videoRooms roomId members },
   [⟨"video:all-users", membersOf io1 sid, .videoAllUsers others⟩,
    ⟨"video:user-joined", (membersOf io1 roomId).erase sid,
      .videoUserJoined sid (user.bind UserInfo.userId) (user.bind UserInfo.username)⟩])

/-- Handler of video:send-offer: forward the offer to the room named by the
target socket id with `from` set to the sender's socket id; no room-membership
check and no state change. -/
def videoSendOffer (st : ServerState) (sid offer target : String) :
    ServerState × List Emit :=
  (st,
   [⟨"video:receive-offer", ioMembers st target,
      .videoReceiveOffer offer sid ((mGet st.activeUsers sid).bind UserInfo.username)⟩])

/-- Handler of video:send-answer: forward the answer to the room named by the
target socket id with `from` set to the sender's socket id. -/
def videoSendAnswer (st : ServerState) (sid answer target : String) :
    ServerState × List Emit :=
  (st, [⟨"video:receive-answer", ioMembers st target, .videoReceiveAnswer answer sid⟩])

/-- Handler of video:ice-candidate: forward the candidate to the room named by
the target socket id with `from` set to the sender's socket id. -/
def videoIceCandidate (st : ServerState) (sid candidate target : String) :
    ServerState × List Emit :=
  (st, [⟨"video:ice-candidate", ioMembers st target, .videoIceCandidate candidate sid⟩])

/-- Handler of video:leave-room: socket.leave(roomId); remove the socket id
from the videoRooms entry and delete the entry when it becomes empty; emit
video:user-left to the remaining sockets in the room. -/
def videoLeaveRoom (st : ServerState) (sid roomId : String) :
    ServerState × List Emit :=
  let io1 := ioLeave st.ioRooms roomId sid
  let video1 :=
    match mGet st.videoRooms roomId with
    | none => st.videoRooms
    | some s =>
      if s.erase sid = ∅ then mDel st.videoRooms roomId
      else mSet st.videoRooms roomId (s.erase sid)
  let user := mGet st.activeUsers sid
  ({ st with ioRooms := io1, videoRooms := video1 },
   [⟨"video:user-left", (membersOf io1 roomId).erase sid,
      .videoUserLeft sid (user.bind UserInfo.userId) (user.bind UserInfo.username)⟩])

/-- Handler of disconnect.  The adapter has already removed the socket from
every room when the handler runs, so the socket.to broadcasts inside it read
the adapter table without the socket.  The handler walks chatRooms, and for
each room containing the socket deletes it from the set (the entry itself is
kept, even when the set becomes empty) and emits chat:user-left; then the same
over videoRooms with video:user-left; finally the socket is deleted from
activeUsers. -/
def disconnectHandler (st : ServerState) (sid ts : String) :
    ServerState × List Emit :=
  let io1 := ioLeaveAll st.ioRooms sid
  let user := mGet st.activeUsers sid
  let chatEmits := (roomsWith st.chatRooms sid).map (fun p =>
    (⟨"chat:user-left", (membersOf io1 p.1).erase sid,
       .chatUserLeft (user.bind UserInfo.userId) (user.bind UserInfo.username) ts⟩ : Emit))
  let videoEmits := (roomsWith st.videoRooms sid).map (fun p =>
    (⟨"video:user-left", (membersOf io1 p.1).erase sid,
       .videoUserLeft sid (user.bind UserInfo.userId) (user.bind UserInfo.username)⟩ : Emit))
  ({ st with
      ioRooms := io1,
      chatRooms := st.chatRooms.map (fun p => (p.1, if sid ∈ p.2 then p.2.erase sid else p.2)),
      videoRooms := st.videoRooms.map (fun p => (p.1, if sid ∈ p.2 then p.2.erase sid else p.2)),
      activeUsers := mDel st.activeUsers sid },
   chatEmits ++ videoEmits)

/-- Handler of the socket error event: the body is a single console.error
call. -/
def socketErrorHandler (st : ServerState) ( _error : String) :
    ServerState × List Emit :=
  (st, [])

/-- Handler of connect_error on the Socket.io server: the body is a single
console.error call. -/
def connectErrorHandler (st : ServerState) ( _error : String) :
    ServerState × List Emit :=
  (st, [])

-- ==================== HTTP API ROUTES ====================

/-- Body of the GET / response. -/
structure StatusBody where
  message : String
  version : String
  status : String
  activeUsers : Nat
  chatRooms : Nat
  videoRooms : Nat
deriving DecidableEq

/-- A JSON response of one of the two routes. -/
inductive HttpResponse where
  | statusJson (body : StatusBody)
  | healthJson (status : String)
deriving DecidableEq

/-- The two GET routes the Express app registers: GET / answers the status
object with the sizes of the three Maps, GET /api/health answers
{ status: "healthy" }, and no other route exists. -/
def handleGet (st : ServerState) (path : String) : Option HttpResponse :=
  if path = "/" then
    some (.statusJson
      ⟨"Remote Work Platform API", "1.0.0", "running",
        mSize st.activeUsers, mSize st.chatRooms, mSize st.videoRooms⟩)
  else if path = "/api/health" then
    some (.healthJson "healthy")
  else
    none

-- ==================== SOCKET.IO SERVER OPTIONS ====================

/-- The connectionStateRecovery block of the Server options (source lines
66-69). -/
structure ConnectionStateRecoveryOptions where
  maxDisconnectionDuration : Nat
  skipMiddlewares : Bool
deriving DecidableEq

/-- The options object passed to `new Server(httpServer, {...})` (source lines
54-81).  corsOrigin is the CLIENT_URL fallback value; maxHttpBufferSize is
written twice in the literal (1e6 then 1e7) and the later key wins in
JavaScript. -/
structure IoServerOptions where
  corsOrigin : String
  corsMethods : List String
  corsCredentials : Bool
  corsAllowEIO3 : Bool
  transports : List String
  allowUpgrades : Bool
  pingInterval : Nat
  pingTimeout : Nat
  connectionStateRecovery : Option ConnectionStateRecoveryOptions
  httpCompressionThreshold : Nat
  perMessageDeflateThreshold : Nat
  cookie : Bool
  maxHttpBufferSize : Nat
deriving DecidableEq

/-- The options the server file passes to the Server constructor. -/
def serverOptions : IoServerOptions :=
  { corsOrigin := "http://localhost:5173"
    corsMethods := ["GET", "POST"]
    corsCredentials := true
    corsAllowEIO3 := true
    transports := ["websocket", "polling"]
    allowUpgrades := true
    pingInterval := 25000
    pingTimeout := 60000
    connectionStateRecovery := some ⟨2 * 60 * 1000, true⟩
    httpCompressionThreshold := 1024
    perMessageDeflateThreshold := 1024
    cookie := false
    maxHttpBufferSize := 10000000 }

/-- Modelled from the spec: the transport library (Socket.io, not part of this
repository) leaves connection-state recovery off unless the option is passed —
the default configuration has no connectionStateRecovery block. -/
def defaultConnectionStateRecovery : Option ConnectionStateRecoveryOptions :=
  none

/-- The state at server start: the three Maps empty, no adapter room, nothing
in any store. -/
def initialState : ServerState :=
  ⟨[], [], [], [], []⟩

-- ==================== CLAIMS ====================

/-- C1: a chat:send-message event for room R broadcasts exactly one
chat:receive-message event, whose delivery set is the whole membership of the
Socket.io room R, carrying the message content unchanged; every socket joined
to R — the sender included, when it has joined R — is among the targets. -/
theorem chat_send_message_broadcast (st : ServerState) (sid : String)
    (d : ChatMessageIn) (now : Nat) (ts : String) :
    (chatSendMessage st sid d now ts).1 = st ∧
    ∃ e, (chatSendMessage st sid d now ts).2 = [e] ∧
      e.event = "chat:receive-message" ∧
      e.targets = ioMembers st d.roomId ∧
      e.payload.messageField = some d.message ∧
      (∀ x, x ∈ ioMembers st d.roomId → x ∈ e.targets) ∧
      (sid ∈ ioMembers st d.roomId → sid ∈ e.targets) :=
  ⟨rfl, _, rfl, rfl, rfl, rfl, fun _ hx => hx, fun hs => hs⟩

/-- C4: each of video:send-offer, video:send-answer and video:ice-candidate
forwards its payload unchanged to the Socket.io room named by the target
socket id, with the `from` field set to the sender's socket id, changing no
state; when that room holds exactly the target socket, exactly the target
receives it; and the emitted events do not depend on the videoRooms
membership at all. -/
theorem video_signaling_point_to_point (st : ServerState)
    (sid offer answer candidate target : String) :
    ((videoSendOffer st sid offer target).1 = st ∧
      (videoSendOffer st sid offer target).2 =
        [⟨"video:receive-offer", ioMembers st target,
           .videoReceiveOffer offer sid
             ((mGet st.activeUsers sid).bind UserInfo.username)⟩] ∧
      (ioMembers st target = {target} →
        ∀ e ∈ (videoSendOffer st sid offer target).2, e.targets = {target})) ∧
    ((videoSendAnswer st sid answer target).1 = st ∧
      (videoSendAnswer st sid answer target).2 =
        [⟨"video:receive-answer", ioMembers st target,
           .videoReceiveAnswer answer sid⟩] ∧
      (ioMembers st target = {target} →
        ∀ e ∈ (videoSendAnswer st sid answer target).2, e.targets = {target})) ∧
    ((videoIceCandidate st sid candidate target).1 = st ∧
      (videoIceCandidate st sid candidate target).2 =
        [⟨"video:ice-candidate", ioMembers st target,
           .videoIceCandidate candidate sid⟩] ∧
      (ioMembers st target = {target} →
        ∀ e ∈ (videoIceCandidate st sid candidate target).2, e.targets = {target})) ∧
    (∀ vr,
      (videoSendOffer { st with videoRooms := vr } sid offer target).2 =
        (videoSendOffer st sid offer target).2 ∧
      (videoSendAnswer { st with videoRooms := vr } sid answer target).2 =
        (videoSendAnswer st sid answer target).2 ∧
      (videoIceCandidate { st with videoRooms := vr } sid candidate target).2 =
        (videoIceCandidate st sid candidate target).2) := by
  refine ⟨⟨rfl, rfl, ?_⟩, ⟨rfl, rfl, ?_⟩, ⟨rfl, rfl, ?_⟩, fun vr => ⟨rfl, rfl, rfl⟩⟩ <;>
    · intro h e he
      simp only [videoSendOffer, videoSendAnswer, videoIceCandidate,
        List.mem_singleton] at he
      subst he
      exact h

/-- C6 counterexample: the Server constructor options do contain a
connectionStateRecovery block, so the server is not initialized with the
transport library's default (recovery off) there. -/
theorem connection_state_recovery_not_default :
    serverOptions.connectionStateRecovery ≠ defaultConnectionStateRecovery := by
  decide

/-- C6 (amended): the Socket.io server is initialized with an explicit,
non-default connection-state recovery configuration — maxDisconnectionDuration
120000 ms and skipMiddlewares true. -/
theorem connection_state_recovery_explicit :
    serverOptions.connectionStateRecovery = some ⟨120000, true⟩ ∧
    serverOptions.connectionStateRecovery ≠ defaultConnectionStateRecovery :=
  ⟨rfl, by decide⟩

/-- C7: the app registers exactly two GET routes — GET / answers the status
object whose activeUsers, chatRooms and videoRooms fields are the sizes of
the three Maps, GET /api/health answers status "healthy" unconditionally, and
every other path has no route. -/
theorem http_routes (st : ServerState) :
    handleGet st "/" = some (.statusJson
      ⟨"Remote Work Platform API", "1.0.0", "running",
        mSize st.activeUsers, mSize st.chatRooms, mSize st.videoRooms⟩) ∧
    handleGet st "/api/health" = some (.healthJson "healthy") ∧
    (∀ p, p ≠ "/" → p ≠ "/api/health" → handleGet st p = none) := by
  refine ⟨rfl, rfl, fun p h1 h2 => ?_⟩
  simp [handleGet, h1, h2]

/-- C8: the socket error handler and the connect_error handler return the
state they were given, with every component as it was, and emit nothing. -/
theorem error_handlers_no_effect (st : ServerState) (e : String) :
    socketErrorHandler st e = (st, []) ∧
    connectErrorHandler st e = (st, []) ∧
    (socketErrorHandler st e).1.activeUsers = st.activeUsers ∧
    (socketErrorHandler st e).1.chatRooms = st.chatRooms ∧
    (socketErrorHandler st e).1.videoRooms = st.videoRooms ∧
    (connectErrorHandler st e).1.activeUsers = st.activeUsers ∧
    (connectErrorHandler st e).1.chatRooms = st.chatRooms ∧
    (connectErrorHandler st e).1.videoRooms = st.videoRooms :=
  ⟨rfl, rfl, rfl, rfl, rfl, rfl, rfl, rfl⟩

/-- C5 counterexample: the chat:join-room handler writes mutable state that is
none of the three Maps — socket.join changes the Socket.io adapter's
room-membership table. -/
theorem handler_writes_beyond_three_maps :
    (chatJoinRoom initialState "s1" "r1" "t0").1.ioRooms ≠ initialState.ioRooms := by
  decide

/-- C5 (amended): the mutable state the handlers write consists of the three
in-memory Maps together with the transport library's room-membership table;
no handler writes to any persistent store — every handler leaves the store
component exactly as it was. -/
theorem handlers_write_no_persistent_store (st : ServerState)
    (sid roomId target ts payload : String) (d : ChatMessageIn) (now : Nat)
    (uid uname email : Option String) :
    (userJoin st sid uid uname email).1.store = st.store ∧
    (chatJoinRoom st sid roomId ts).1.store = st.store ∧
    (chatSendMessage st sid d now ts).1.store = st.store ∧
    (chatLeaveRoom st sid roomId ts).1.store = st.store ∧
    (videoJoinRoom st sid roomId).1.store = st.store ∧
    (videoSendOffer st sid payload target).1.store = st.store ∧
    (videoSendAnswer st sid payload target).1.store = st.store ∧
    (videoIceCandidate st sid payload target).1.store = st.store ∧
    (videoLeaveRoom st sid roomId).1.store = st.store ∧
    (disconnectHandler st sid ts).1.store = st.store ∧
    (socketErrorHandler st payload).1.store = st.store ∧
    (connectErrorHandler st payload).1.store = st.store :=
  ⟨rfl, rfl, rfl, rfl, rfl, rfl, rfl, rfl, rfl, rfl, rfl, rfl⟩

theorem mem_mSet {α : Type} (m : List (String × α)) (k : String) (v : α)
    (p : String × α) : p ∈ mSet m k v → p = (k, v) ∨ p ∈ m := by
  induction m with
  | nil => simp [mSet]
  | cons q rest ih =>
    by_cases h : q.1 = k
    · simp only [mSet, if_pos h, List.mem_cons]
      rintro (rfl | hm)
      · exact Or.inl rfl
      · exact Or.inr (Or.inr hm)
    · simp only [mSet, if_neg h, List.mem_cons]
      rintro (rfl | hm)
      · exact Or.inr (Or.inl rfl)
      · rcases ih hm with h1 | h2
        · exact Or.inl h1
        · exact Or.inr (Or.inr h2)

theorem mem_mDel {α : Type} (m : List (String × α)) (k : String)
    (p : String × α) : p ∈ mDel m k → p ∈ m := by
  induction m with
  | nil => simp [mDel]
  | cons q rest ih =>
    by_cases h : q.1 = k
    · simp only [mDel, if_pos h]
      exact fun hm => List.mem_cons_of_mem q (ih hm)
    · simp only [mDel, if_neg h, List.mem_cons]
      rintro (rfl | hm)
      · exact Or.inl rfl
      · exact Or.inr (ih hm)

/-- C3: a chat:join-room event for room R adds the joining socket's id to R's
membership set in chatRooms (creating the entry when R is absent), emits
chat:user-joined to every other socket of the Socket.io room R and not to the
joiner, and emits chat:room-joined to the joiner's own room with userCount
equal to the size of R's membership set with the joiner counted. -/
theorem chat_join_room_adds_and_announces (st : ServerState) (sid roomId ts : String) :
    mGet (chatJoinRoom st sid roomId ts).1.chatRooms roomId =
      some (insert sid (membersOf st.chatRooms roomId)) ∧
    sid ∈ membersOf (chatJoinRoom st sid roomId ts).1.chatRooms roomId ∧
    ∃ e1 e2, (chatJoinRoom st sid roomId ts).2 = [e1, e2] ∧
      e1.event = "chat:user-joined" ∧
      (∀ x, x ∈ ioMembers (chatJoinRoom st sid roomId ts).1 roomId → x ≠ sid →
        x ∈ e1.targets) ∧
      sid ∉ e1.targets ∧
      e2.event = "chat:room-joined" ∧
      e2.targets = ioMembers (chatJoinRoom st sid roomId ts).1 sid ∧
      (sid ∈ ioMembers st sid → sid ∈ e2.targets) ∧
      e2.payload =
        .chatRoomJoined roomId (insert sid (membersOf st.chatRooms roomId)).card := by
  refine ⟨?_, ?_, _, _, rfl, rfl, ?_, ?_, rfl, rfl, ?_, rfl⟩
  · exact mGet_mSet_self st.chatRooms roomId _
  · show sid ∈ membersOf (mSet st.chatRooms roomId _) roomId
    rw [membersOf, mGet_mSet_self]
    exact Finset.mem_insert_self sid _
  · intro x hx hne
    exact Finset.mem_erase.mpr ⟨hne, hx⟩
  · exact Finset.not_mem_erase sid _
  · intro hs
    show sid ∈ membersOf (ioJoin st.ioRooms roomId sid) sid
    by_cases h : sid = roomId
    · subst h
      rw [membersOf, ioJoin, mGet_mSet_self]
      exact Finset.mem_insert_self sid _
    · rw [membersOf, ioJoin, mGet_mSet_ne _ _ _ _ h]
      exact hs

/-- C10: a socket joining a chat (or video) room it already belongs to leaves
the room's membership entry in the Map exactly as it was, and the userCount
carried by chat:room-joined is the unchanged size of that set. -/
theorem rejoin_idempotent (st : ServerState) (sid roomId ts : String) :
    (sid ∈ membersOf st.chatRooms roomId →
      mGet (chatJoinRoom st sid roomId ts).1.chatRooms roomId =
        mGet st.chatRooms roomId ∧
      ∃ e1 e2, (chatJoinRoom st sid roomId ts).2 = [e1, e2] ∧
        e2.payload =
          .chatRoomJoined roomId (membersOf st.chatRooms roomId).card) ∧
    (sid ∈ membersOf st.videoRooms roomId →
      mGet (videoJoinRoom st sid roomId).1.videoRooms roomId =
        mGet st.videoRooms roomId) := by
  constructor
  · intro h
    have hins : insert sid (membersOf st.chatRooms roomId) =
        membersOf st.chatRooms roomId := Finset.insert_eq_self.mpr h
    constructor
    · cases hm : mGet st.chatRooms roomId with
      | none =>
        rw [membersOf, hm] at h
        exact absurd h (Finset.not_mem_empty sid)
      | some m =>
        show mGet (mSet st.chatRooms roomId (insert sid (membersOf st.chatRooms roomId)))
            roomId = some m
        rw [mGet_mSet_self, hins, membersOf, hm]
        rfl
    · exact ⟨_, _, rfl, by rw [hins]⟩
  · intro h
    have hins : insert sid (membersOf st.videoRooms roomId) =
        membersOf st.videoRooms roomId := Finset.insert_eq_self.mpr h
    cases hm : mGet st.videoRooms roomId with
    | none =>
      rw [membersOf, hm] at h
      exact absurd h (Finset.not_mem_empty sid)
    | some m =>
      show mGet (mSet st.videoRooms roomId (insert sid (membersOf st.videoRooms roomId)))
          roomId = some m
      rw [mGet_mSet_self, hins, membersOf, hm]
      rfl

theorem not_mem_value_after_removal (rooms : List (String × Finset String))
    (sid : String) (p : String × Finset String)
    (hp : p ∈ rooms.map (fun q => (q.1, if sid ∈ q.2 then q.2.erase sid else q.2))) :
    sid ∉ p.2 := by
  rcases List.mem_map.mp hp with ⟨q, hq, rfl⟩
  by_cases h : sid ∈ q.2
  · simp [h]
  · simp [h]

theorem mem_membersOf_leaveAll (rooms : List (String × Finset String))
    (sid r x : String) (hx : x ∈ membersOf rooms r) (hne : x ≠ sid) :
    x ∈ membersOf (ioLeaveAll rooms sid) r := by
  cases hio : mGet rooms r with
  | none =>
    rw [membersOf, hio] at hx
    simp at hx
  | some s =>
    have h3 := mGet_map_value rooms (fun t => t.erase sid) r
    rw [hio] at h3
    rw [membersOf, hio] at hx
    simp only [Option.getD_some] at hx
    rw [membersOf, show mGet (ioLeaveAll rooms sid) r = some (s.erase sid) from h3]
    simpa using Finset.mem_erase.mpr ⟨hne, hx⟩

/-- C2: after the disconnect handler runs, the disconnecting socket is in no
set of the chatRooms Map, in no set of the videoRooms Map, and absent from the
activeUsers Map; and for each chat (respectively video) room whose set
contained it, a chat:user-left (respectively video:user-left) event is emitted
whose targets include every other socket of that Socket.io room. -/
theorem disconnect_removes_membership (st : ServerState) (sid ts : String) :
    (∀ p ∈ (disconnectHandler st sid ts).1.chatRooms, sid ∉ p.2) ∧
    (∀ p ∈ (disconnectHandler st sid ts).1.videoRooms, sid ∉ p.2) ∧
    mGet (disconnectHandler st sid ts).1.activeUsers sid = none ∧
    (∀ p ∈ st.chatRooms, sid ∈ p.2 →
      ∃ e ∈ (disconnectHandler st sid ts).2,
        e.event = "chat:user-left" ∧
        sid ∉ e.targets ∧
        ∀ x, x ∈ ioMembers st p.1 → x ≠ sid → x ∈ e.targets) ∧
    (∀ p ∈ st.videoRooms, sid ∈ p.2 →
      ∃ e ∈ (disconnectHandler st sid ts).2,
        e.event = "video:user-left" ∧
        sid ∉ e.targets ∧
        ∀ x, x ∈ ioMembers st p.1 → x ≠ sid → x ∈ e.targets) := by
  have hchat : (disconnectHandler st sid ts).1.chatRooms =
      st.chatRooms.map (fun q => (q.1, if sid ∈ q.2 then q.2.erase sid else q.2)) := rfl
  have hvideo : (disconnectHandler st sid ts).1.videoRooms =
      st.videoRooms.map (fun q => (q.1, if sid ∈ q.2 then q.2.erase sid else q.2)) := rfl
  refine ⟨?_, ?_, ?_, ?_, ?_⟩
  · intro p hp
    rw [hchat] at hp
    exact not_mem_value_after_removal st.chatRooms sid p hp
  · intro p hp
    rw [hvideo] at hp
    exact not_mem_value_after_removal st.videoRooms sid p hp
  · exact mGet_mDel_self st.activeUsers sid
  · intro p hp hsp
    have hpmem : p ∈ roomsWith st.chatRooms sid :=
      (mem_roomsWith st.chatRooms sid p).mpr ⟨hp, hsp⟩
    refine ⟨⟨"chat:user-left",
        (membersOf (ioLeaveAll st.ioRooms sid) p.1).erase sid,
        .chatUserLeft ((mGet st.activeUsers sid).bind UserInfo.userId)
          ((mGet st.activeUsers sid).bind UserInfo.username) ts⟩,
      List.mem_append_left _ (List.mem_map_of_mem _ hpmem), rfl,
      Finset.not_mem_erase sid _, ?_⟩
    intro x hx hne
    exact Finset.mem_erase.mpr ⟨hne, mem_membersOf_leaveAll st.ioRooms sid p.1 x hx hne⟩
  · intro p hp hsp
    have hpmem : p ∈ roomsWith st.videoRooms sid :=
      (mem_roomsWith st.videoRooms sid p).mpr ⟨hp, hsp⟩
    refine ⟨⟨"video:user-left",
        (membersOf (ioLeaveAll st.ioRooms sid) p.1).erase sid,
        .videoUserLeft sid ((mGet st.activeUsers sid).bind UserInfo.userId)
          ((mGet st.activeUsers sid).bind UserInfo.username)⟩,
      List.mem_append_right _ (List.mem_map_of_mem _ hpmem), rfl,
      Finset.not_mem_erase sid _, ?_⟩
    intro x hx hne
    exact Finset.mem_erase.mpr ⟨hne, mem_membersOf_leaveAll st.ioRooms sid p.1 x hx hne⟩

/-- C9: an explicit chat:leave-room (or video:leave-room) by the last member
deletes the room's Map entry, and by a non-last member shrinks the entry to
the remaining set — so explicit leaves keep every mapped room non-empty —
while the disconnect handler keeps the entry of a room whose sole member
disconnects, now holding the empty set. -/
theorem empty_room_cleanup_asymmetric (st : ServerState) (sid roomId ts : String) :
    (∀ m, mGet st.chatRooms roomId = some m → m.erase sid = ∅ →
      mGet (chatLeaveRoom st sid roomId ts).1.chatRooms roomId = none) ∧
    (∀ m, mGet st.chatRooms roomId = some m → m.erase sid ≠ ∅ →
      mGet (chatLeaveRoom st sid roomId ts).1.chatRooms roomId = some (m.erase sid)) ∧
    (∀ m, mGet st.videoRooms roomId = some m → m.erase sid = ∅ →
      mGet (videoLeaveRoom st sid roomId).1.videoRooms roomId = none) ∧
    (∀ m, mGet st.videoRooms roomId = some m → m.erase sid ≠ ∅ →
      mGet (videoLeaveRoom st sid roomId).1.videoRooms roomId = some (m.erase sid)) ∧
    ((∀ p ∈ st.chatRooms, p.2 ≠ ∅) →
      ∀ p ∈ (chatLeaveRoom st sid roomId ts).1.chatRooms, p.2 ≠ ∅) ∧
    ((∀ p ∈ st.videoRooms, p.2 ≠ ∅) →
      ∀ p ∈ (videoLeaveRoom st sid roomId).1.videoRooms, p.2 ≠ ∅) ∧
    (mGet st.chatRooms roomId = some {sid} →
      mGet (disconnectHandler st sid ts).1.chatRooms roomId = some ∅) ∧
    (mGet st.videoRooms roomId = some {sid} →
      mGet (disconnectHandler st sid ts).1.videoRooms roomId = some ∅) := by
  refine ⟨?_, ?_, ?_, ?_, ?_, ?_, ?_, ?_⟩
  · intro m hm he
    simp [chatLeaveRoom, hm, he, mGet_mDel_self]
  · intro m hm he
    simp [chatLeaveRoom, hm, he, mGet_mSet_self]
  · intro m hm he
    simp [videoLeaveRoom, hm, he, mGet_mDel_self]
  · intro m hm he
    simp [videoLeaveRoom, hm, he, mGet_mSet_self]
  · intro hinv p hp
    cases hm : mGet st.chatRooms roomId with
    | none =>
      simp only [chatLeaveRoom, hm] at hp
      exact hinv p hp
    | some m =>
      by_cases he : m.erase sid = ∅
      · simp only [chatLeaveRoom, hm, if_pos he] at hp
        exact hinv p (mem_mDel st.chatRooms roomId p hp)
      · simp only [chatLeaveRoom, hm, if_neg he] at hp
        rcases mem_mSet st.chatRooms roomId (m.erase sid) p hp with h1 | h2
        · rw [h1]
          exact he
        · exact hinv p h2
  · intro hinv p hp
    cases hm : mGet st.videoRooms roomId with
    | none =>
      simp only [videoLeaveRoom, hm] at hp
      exact hinv p hp
    | some m =>
      by_cases he : m.erase sid = ∅
      · simp only [videoLeaveRoom, hm, if_pos he] at hp
        exact hinv p (mem_mDel st.videoRooms roomId p hp)
      · simp only [videoLeaveRoom, hm, if_neg he] at hp
        rcases mem_mSet st.videoRooms roomId (m.erase sid) p hp with h1 | h2
        · rw [h1]
          exact he
        · exact hinv p h2
  · intro hm
    have h1 : mGet (disconnectHandler st sid ts).1.chatRooms roomId =
        (mGet st.chatRooms roomId).map
          (fun s => if sid ∈ s then s.erase sid else s) :=
      mGet_map_value st.chatRooms (fun s => if sid ∈ s then s.erase sid else s) roomId
    rw [h1, hm]
    simp [Finset.erase_singleton]
  · intro hm
    have h1 : mGet (disconnectHandler st sid ts).1.videoRooms roomId =
        (mGet st.videoRooms roomId).map
          (fun s => if sid ∈ s then s.erase sid else s) :=
      mGet_map_value st.videoRooms (fun s => if sid ∈ s then s.erase sid else s) roomId
    rw [h1, hm]
    simp [Finset.erase_singleton]

end Collaboro
